import Mathlib

/-!
Verification of the BadRobot correction-canvas core: the stroke history
store, the pointer-anchored wheel zoom, the mask bounding-box computation,
the generate-submission control flow, and the multipart form assembly.
Definitions are shallow embeddings of the TypeScript source
(src/components/PaintCanvas.tsx, src/components/CorrectionPanel.tsx,
src/lib/form.ts).
-/

namespace BadRobot

/-- A committed brush stroke (`PathHistoryItem` in PaintCanvas.tsx):
a color tag, the path in image space, and the brush width. -/
structure Stroke where
  color : String
  path : List (Int × Int)
  brushSize : Nat
deriving DecidableEq, Repr

/-- The stroke history of one canvas: the log `historyRef.current` and the
cursor `historyIndexRef.current` (an integer, `-1` meaning nothing active). -/
structure HistState where
  history : List Stroke
  idx : Int
deriving DecidableEq, Repr

namespace History

/-- The slice `historyRef.current.slice(0, historyIndexRef.current + 1)`: the strokes
at positions `<= idx`, used by redraw, mask export and active-color updates. -/
def activeStrokes (st : HistState) : List Stroke :=
  st.history.take (st.idx + 1).toNat

/-- Embeds `stopPainting` (PaintCanvas.tsx lines 306-323), the commit of a gesture:
when at least one segment was painted (`hasPaintedOnPath`), truncate the log
to `slice(0, idx+1)`, push the new stroke and move the cursor to the end;
otherwise the log and cursor are untouched. -/
def stopPainting (st : HistState) (s : Stroke) (hasPaintedOnPath : Bool) : HistState :=
  if hasPaintedOnPath then
    let newHistory := st.history.take (st.idx + 1).toNat ++ [s]
    { history := newHistory, idx := (newHistory.length : Int) - 1 }
  else st

/-- Embeds `undo` (PaintCanvas.tsx lines 457-464): decrement the cursor when
`historyIndexRef.current > -1`, else no-op. -/
def undo (st : HistState) : HistState :=
  if st.idx > -1 then { st with idx := st.idx - 1 } else st

/-- Embeds `redo` (PaintCanvas.tsx lines 465-472): increment the cursor when
`historyIndexRef.current < historyRef.current.length - 1`, else no-op. -/
def redo (st : HistState) : HistState :=
  if st.idx < (st.history.length : Int) - 1 then { st with idx := st.idx + 1 } else st

/-- Embeds `clearCanvas` (PaintCanvas.tsx lines 448-456): empty log, cursor `-1`. -/
def clearCanvas (_st : HistState) : HistState :=
  { history := [], idx := -1 }

/-- Embeds `deletePathsForColor` (PaintCanvas.tsx lines 473-479): filter out every
stroke of the color and clamp the cursor with
`Math.min(historyIndexRef.current, historyRef.current.length - 1)`. -/
def deletePathsForColor (st : HistState) (c : String) : HistState :=
  let newHistory := st.history.filter (fun item => item.color != c)
  { history := newHistory, idx := min st.idx ((newHistory.length : Int) - 1) }

/-- The `canUndo` field of `getHistoryState` (PaintCanvas.tsx lines 392-395). -/
def canUndo (st : HistState) : Bool := st.idx > -1

/-- The `canRedo` field of `getHistoryState`. -/
def canRedo (st : HistState) : Bool := st.idx < (st.history.length : Int) - 1

/-- Both `getMaskAsBase64` and `getMaskPNG` return a mask exactly when the active
history holds at least one stroke of the color (`pathsForColor.length === 0`
yields `null`); this predicate records that non-nullness. -/
def maskAvailable (st : HistState) (c : String) : Bool :=
  !((activeStrokes st).filter (fun item => item.color == c)).isEmpty

end History

open History

/-- Insertion into a JS `Set`, element by element: an element already seen
is skipped, so the first occurrence survives in first-appearance order. -/
def firstDedupGo (seen : List String) : List String → List String
  | [] => []
  | a :: l => if seen.contains a then firstDedupGo seen l else a :: firstDedupGo (a :: seen) l

/-- A JS `Set` built by inserting list elements in order, read back with the
spread operator. Used for `new Set(activeHistory.map(item => item.color))`. -/
def firstDedup (l : List String) : List String :=
  firstDedupGo [] l

/-- Embeds `updateActiveColors` (PaintCanvas.tsx lines 70-74): the set of colors of
the active strokes, as the ordered list a JS `Set` spread yields. -/
def activeColors (st : HistState) : List String :=
  firstDedup ((activeStrokes st).map (fun s => s.color))

/-- Embeds `pairedColors` (CorrectionPanel.tsx lines 248-250):
`[...sourceActiveColors].filter(c => refActiveColors.has(c))`. -/
def pairedColors (src rf : HistState) : List String :=
  (activeColors src).filter (fun c => ((activeStrokes rf).map (fun s => s.color)).contains c)

theorem mem_firstDedupGo (a : String) :
    ∀ (l seen : List String), a ∈ firstDedupGo seen l ↔ (a ∈ l ∧ a ∉ seen)
  | [], seen => by simp [firstDedupGo]
  | b :: l, seen => by
    rw [firstDedupGo]
    by_cases hb : seen.contains b
    · rw [if_pos hb, mem_firstDedupGo a l seen]
      have hbmem : b ∈ seen := by simpa using hb
      constructor
      · rintro ⟨hl, hs⟩
        exact ⟨List.mem_cons_of_mem b hl, hs⟩
      · rintro ⟨hbl, hs⟩
        rcases List.mem_cons.1 hbl with hab | hl
        · exact absurd (hab ▸ hbmem) hs
        · exact ⟨hl, hs⟩
    · rw [if_neg hb]
      have hbmem : b ∉ seen := fun hm => hb (by simpa using hm)
      by_cases hab : a = b
      · subst hab
        simp [hbmem]
      · simp only [List.mem_cons, hab, false_or]
        rw [mem_firstDedupGo a l (b :: seen)]
        simp [List.mem_cons, hab]

theorem mem_firstDedup (a : String) (l : List String) : a ∈ firstDedup l ↔ a ∈ l := by
  rw [firstDedup, mem_firstDedupGo]
  simp

/-! ### History scenario data (two red strokes, one blue, cursor at 2) -/

def redStrokeA : Stroke := { color := "red", path := [(0, 0), (1, 1)], brushSize := 30 }

def redStrokeB : Stroke := { color := "red", path := [(2, 2), (3, 3)], brushSize := 30 }

def blueStroke : Stroke := { color := "blue", path := [(4, 4), (5, 5)], brushSize := 30 }

def threeStrokeState : HistState := { history := [redStrokeA, redStrokeB, blueStroke], idx := 2 }

/-! ### Claim theorems on the history store -/

/-- C1: for every stroke history with cursor `idx > -1`, `undo()` followed by
`redo()` leaves the active stroke set (positions `<= idx`) identical to what
it was before the undo. -/
theorem claim1_undo_redo_roundtrip (st : HistState) (h : st.idx > -1) :
    activeStrokes (redo (undo st)) = activeStrokes st := by
  unfold undo redo activeStrokes
  rw [if_pos h]
  by_cases h2 : st.idx - 1 < (st.history.length : Int) - 1
  · rw [if_pos h2]
    simp only
    congr 1
    omega
  · rw [if_neg h2]
    simp only
    rw [List.take_of_length_le, List.take_of_length_le] <;> omega

theorem claim1_witness :
    threeStrokeState.idx > -1
    ∧ activeStrokes (redo (undo threeStrokeState)) = activeStrokes threeStrokeState :=
  ⟨by decide, claim1_undo_redo_roundtrip threeStrokeState (by decide)⟩

/-- C2: committing a gesture with at least one painted segment while
`idx < length - 1` truncates the history to positions `<= idx`, appends the
new stroke and sets `idx = length - 1`; an immediately following `redo()` is
a no-op, and a zero-length gesture leaves history and cursor unchanged. -/
theorem claim2_commit_stroke (st : HistState) (s : Stroke)
    (_h1 : -1 ≤ st.idx) (_h2 : st.idx < (st.history.length : Int) - 1) :
    (stopPainting st s true).history = st.history.take (st.idx + 1).toNat ++ [s]
    ∧ (stopPainting st s true).idx = ((stopPainting st s true).history.length : Int) - 1
    ∧ redo (stopPainting st s true) = stopPainting st s true
    ∧ stopPainting st s false = st := by
  refine ⟨rfl, rfl, ?_, rfl⟩
  unfold redo stopPainting
  simp

/-- The three-stroke history after one `undo`: cursor strictly below the top. -/
def undoneState : HistState := { history := [redStrokeA, redStrokeB, blueStroke], idx := 1 }

theorem claim2_witness :
    -1 ≤ undoneState.idx ∧ undoneState.idx < (undoneState.history.length : Int) - 1
    ∧ ((stopPainting undoneState blueStroke true).history
        = undoneState.history.take (undoneState.idx + 1).toNat ++ [blueStroke]
      ∧ (stopPainting undoneState blueStroke true).idx
        = ((stopPainting undoneState blueStroke true).history.length : Int) - 1
      ∧ redo (stopPainting undoneState blueStroke true)
        = stopPainting undoneState blueStroke true
      ∧ stopPainting undoneState blueStroke false = undoneState) :=
  ⟨by decide, by decide,
    claim2_commit_stroke undoneState blueStroke (by decide) (by decide)⟩

/-- C3: `deletePathsForColor c` removes exactly the strokes of color `c`
(active and inactive), preserves the relative order of the rest (the result
is a sublist), and sets the cursor to `min(idx, newLength - 1)`. On the
scenario history of two red strokes and one blue at `idx = 2`, deleting red
leaves exactly the blue stroke at `idx = 0`, red has no mask any more
(`getMaskPNG` would return `null`) and stays excluded from `pairedColors`
against any reference canvas, even after a `redo()`. -/
theorem claim3_delete_color (st : HistState) (c : String) :
    (deletePathsForColor st c).history = st.history.filter (fun item => item.color != c)
    ∧ (deletePathsForColor st c).idx
        = min st.idx (((deletePathsForColor st c).history.length : Int) - 1)
    ∧ (∀ item : Stroke, item ∈ (deletePathsForColor st c).history
        ↔ item ∈ st.history ∧ item.color ≠ c)
    ∧ (deletePathsForColor st c).history.Sublist st.history
    ∧ deletePathsForColor threeStrokeState "red" = { history := [blueStroke], idx := 0 }
    ∧ maskAvailable (deletePathsForColor threeStrokeState "red") "red" = false
    ∧ maskAvailable (redo (deletePathsForColor threeStrokeState "red")) "red" = false
    ∧ (∀ rf : HistState, "red" ∉ pairedColors (deletePathsForColor threeStrokeState "red") rf)
    ∧ (∀ rf : HistState,
        "red" ∉ pairedColors (redo (deletePathsForColor threeStrokeState "red")) rf) := by
  refine ⟨rfl, rfl, ?_, List.filter_sublist _, by decide, by decide, by decide, ?_, ?_⟩
  · intro item
    simp [deletePathsForColor, List.mem_filter]
  · intro rf h
    have h1 := (List.mem_filter.1 h).1
    exact absurd h1 (by decide)
  · intro rf h
    have h1 := (List.mem_filter.1 h).1
    exact absurd h1 (by decide)

/-- C9: deleting a color can make a previously inactive stroke active.
With history `[c-stroke, d-stroke]` and cursor `0`, only the `c` stroke is
active; `deletePathsForColor "c"` leaves `[d-stroke]` with
`idx = min(0, 0) = 0`, so the undone `d` stroke becomes active, and the new
active set differs from the old active set minus color `c`. -/
theorem claim9_delete_activates_undone_stroke :
    activeStrokes (deletePathsForColor
        { history := [{ color := "c", path := [(0, 0), (1, 1)], brushSize := 30 },
                      { color := "d", path := [(2, 2), (3, 3)], brushSize := 30 }], idx := 0 } "c")
      = [{ color := "d", path := [(2, 2), (3, 3)], brushSize := 30 }]
    ∧ ({ color := "d", path := [(2, 2), (3, 3)], brushSize := 30 } : Stroke)
        ∉ activeStrokes
          { history := [{ color := "c", path := [(0, 0), (1, 1)], brushSize := 30 },
                        { color := "d", path := [(2, 2), (3, 3)], brushSize := 30 }], idx := 0 }
    ∧ activeStrokes (deletePathsForColor
        { history := [{ color := "c", path := [(0, 0), (1, 1)], brushSize := 30 },
                      { color := "d", path := [(2, 2), (3, 3)], brushSize := 30 }], idx := 0 } "c")
      ≠ (activeStrokes
          { history := [{ color := "c", path := [(0, 0), (1, 1)], brushSize := 30 },
                        { color := "d", path := [(2, 2), (3, 3)], brushSize := 30 }], idx := 0 }).filter
          (fun item => item.color != "c") := by
  decide

/-! ### The reachable-state invariant (C10) -/

/-- One user-visible mutation of the history store. -/
inductive HistOp where
  | commit (s : Stroke) (hasPaintedOnPath : Bool)
  | opUndo
  | opRedo
  | opClear
  | opDelete (c : String)

/-- Dispatch one operation to the embedded handler. -/
def applyOp (st : HistState) : HistOp → HistState
  | .commit s hp => stopPainting st s hp
  | .opUndo => undo st
  | .opRedo => redo st
  | .opClear => clearCanvas st
  | .opDelete c => deletePathsForColor st c

/-- Run a sequence of operations from the initial empty history
(`historyRef.current = []`, `historyIndexRef.current = -1`). -/
def runOps (ops : List HistOp) : HistState :=
  ops.foldl applyOp { history := [], idx := -1 }

/-- The cursor invariant: `-1 <= idx <= length - 1`. -/
def CursorInv (st : HistState) : Prop :=
  -1 ≤ st.idx ∧ st.idx ≤ (st.history.length : Int) - 1

theorem applyOp_inv (st : HistState) (op : HistOp) (h : CursorInv st) :
    CursorInv (applyOp st op) := by
  obtain ⟨h1, h2⟩ := h
  cases op with
  | commit s hp =>
    cases hp with
    | true =>
      show CursorInv (stopPainting st s true)
      simp only [stopPainting, if_true, CursorInv, List.length_append, List.length_cons,
        List.length_nil]
      omega
    | false => exact ⟨h1, h2⟩
  | opUndo =>
    show CursorInv (undo st)
    by_cases hc : st.idx > -1
    · simp only [undo, if_pos hc, CursorInv]
      omega
    · simp only [undo, if_neg hc, CursorInv]
      omega
  | opRedo =>
    show CursorInv (redo st)
    by_cases hc : st.idx < (st.history.length : Int) - 1
    · simp only [redo, if_pos hc, CursorInv]
      omega
    · simp only [redo, if_neg hc, CursorInv]
      omega
  | opClear =>
    show CursorInv (clearCanvas st)
    simp only [clearCanvas, CursorInv, List.length_nil]
    omega
  | opDelete c =>
    show CursorInv (deletePathsForColor st c)
    simp only [deletePathsForColor, CursorInv]
    omega

theorem foldl_inv : ∀ (ops : List HistOp) (st : HistState), CursorInv st →
    CursorInv (ops.foldl applyOp st)
  | [], _, h => h
  | op :: ops, st, h => foldl_inv ops (applyOp st op) (applyOp_inv st op h)

/-- C10: from the empty history, every sequence of commit / undo / redo /
clear / delete-color operations keeps the cursor in `[-1, length - 1]`, and
the active strokes are exactly the prefix of the history up to and including
position `idx`. -/
theorem claim10_cursor_invariant (ops : List HistOp) :
    -1 ≤ (runOps ops).idx
    ∧ (runOps ops).idx ≤ ((runOps ops).history.length : Int) - 1
    ∧ activeStrokes (runOps ops) = (runOps ops).history.take ((runOps ops).idx + 1).toNat := by
  have h := foldl_inv ops { history := [], idx := -1 } ⟨by norm_num, by simp⟩
  exact ⟨h.1, h.2, rfl⟩

/-! ### Pointer-anchored wheel zoom (PaintCanvas.tsx lines 265-278) -/

/-- The view transform of one canvas, over exact rationals. -/
structure Transform where
  scale : ℚ
  offsetX : ℚ
  offsetY : ℚ
deriving DecidableEq, Repr

/-- Embeds `handleWheel`: `scaleAmount = -e.deltaY * 0.001`,
`newScale = Math.max(0.1, Math.min(10, prev.scale + scaleAmount))`,
`newOffset = mouse - (mouse - prev.offset) * (newScale / prev.scale)`. -/
def handleWheel (t : Transform) (mouseX mouseY deltaY : ℚ) : Transform :=
  let scaleAmount := -deltaY * (1 / 1000)
  let newScale := max (1 / 10) (min 10 (t.scale + scaleAmount))
  { scale := newScale,
    offsetX := mouseX - (mouseX - t.offsetX) * (newScale / t.scale),
    offsetY := mouseY - (mouseY - t.offsetY) * (newScale / t.scale) }

/-- C4: the wheel handler clamps the new scale to `[0.1, 10]` and recomputes
the offset so that the canvas-space point under the pointer is unchanged:
`(p - newOffset) / newScale = (p - offset) / scale`, also when the clamp
binds (the proof never assumes the clamp is slack). -/
theorem claim4_wheel_zoom_anchor (t : Transform) (mouseX mouseY deltaY : ℚ)
    (h : 0 < t.scale) :
    (handleWheel t mouseX mouseY deltaY).scale
      = max (1 / 10) (min 10 (t.scale + -deltaY * (1 / 1000)))
    ∧ (mouseX - (handleWheel t mouseX mouseY deltaY).offsetX)
        / (handleWheel t mouseX mouseY deltaY).scale
      = (mouseX - t.offsetX) / t.scale
    ∧ (mouseY - (handleWheel t mouseX mouseY deltaY).offsetY)
        / (handleWheel t mouseX mouseY deltaY).scale
      = (mouseY - t.offsetY) / t.scale := by
  have hs : t.scale ≠ 0 := ne_of_gt h
  have hns : (0 : ℚ) < max (1 / 10) (min 10 (t.scale + -deltaY * (1 / 1000))) :=
    lt_of_lt_of_le (by norm_num) (le_max_left _ _)
  have hns2 : max (1 / 10) (min 10 (t.scale + -deltaY * (1 / 1000))) ≠ 0 := ne_of_gt hns
  refine ⟨rfl, ?_, ?_⟩ <;>
  · simp only [handleWheel]
    field_simp
    ring

theorem claim4_witness :
    (0 : ℚ) < (1 : ℚ)
    ∧ ((handleWheel ⟨1, 0, 0⟩ 3 4 (-100)).scale
        = max (1 / 10) (min 10 ((1 : ℚ) + -(-100) * (1 / 1000)))
      ∧ ((3 : ℚ) - (handleWheel ⟨1, 0, 0⟩ 3 4 (-100)).offsetX)
          / (handleWheel ⟨1, 0, 0⟩ 3 4 (-100)).scale = ((3 : ℚ) - 0) / 1
      ∧ ((4 : ℚ) - (handleWheel ⟨1, 0, 0⟩ 3 4 (-100)).offsetY)
          / (handleWheel ⟨1, 0, 0⟩ 3 4 (-100)).scale = ((4 : ℚ) - 0) / 1) :=
  ⟨by norm_num, claim4_wheel_zoom_anchor ⟨1, 0, 0⟩ 3 4 (-100) (by norm_num)⟩

/-! ### Mask bounding box (PaintCanvas.tsx getMaskBBox, lines 484-532) -/

/-- An axis-aligned bounding box, as the `{x, y, w, h}` record. -/
structure BBox where
  x : Int
  y : Int
  w : Int
  h : Int
deriving DecidableEq, Repr

/-- The running extrema of the pixel scan (`minX/minY/maxX/maxY`). -/
structure ScanState where
  minX : Int
  minY : Int
  maxX : Int
  maxY : Int
deriving DecidableEq, Repr

/-- One hit of the scan body: the four `if` comparisons. -/
def scanPixel (st : ScanState) (x y : Int) : ScanState :=
  { minX := if x < st.minX then x else st.minX,
    maxX := if x > st.maxX then x else st.maxX,
    minY := if y < st.minY then y else st.minY,
    maxY := if y > st.maxY then y else st.maxY }

/-- The nested `for y / for x` loop over the rasterized mask. `mask x y` is
`data[(y * width + x) * 4] > 0`, the red-channel test; the initial extrema
are `minX = width, minY = height, maxX = -1, maxY = -1`. -/
def scanMask (mask : Nat → Nat → Bool) (natW natH : Nat) : ScanState :=
  (List.range natH).foldl
    (fun st y =>
      (List.range natW).foldl
        (fun st2 x => if mask x y then scanPixel st2 (x : Int) (y : Int) else st2) st)
    { minX := natW, minY := natH, maxX := -1, maxY := -1 }

/-- The tail of `getMaskBBox`: `null` when no pixel was found, else the scanned
extrema padded by 12 and clamped with `Math.max(0, ...)` / `Math.min(...)`. -/
def getMaskBBox (mask : Nat → Nat → Bool) (natW natH : Nat) : Option BBox :=
  let st := scanMask mask natW natH
  if st.maxX = -1 then none
  else
    let padding : Int := 12
    let x := max 0 (st.minX - padding)
    let y := max 0 (st.minY - padding)
    let w := min ((natW : Int) - x) ((st.maxX - st.minX) + 1 + padding * 2)
    let h := min ((natH : Int) - y) ((st.maxY - st.minY) + 1 + padding * 2)
    some { x := x, y := y, w := w, h := h }

/-- C7: whenever `getMaskBBox` returns a box, the box lies inside the raster
even after the fixed 12-pixel padding: `0 <= x`, `0 <= y`,
`x + w <= nativeWidth` and `y + h <= nativeHeight`. -/
theorem claim7_bbox_in_bounds (mask : Nat → Nat → Bool) (natW natH : Nat) (b : BBox)
    (h : getMaskBBox mask natW natH = some b) :
    0 ≤ b.x ∧ 0 ≤ b.y ∧ b.x + b.w ≤ (natW : Int) ∧ b.y + b.h ≤ (natH : Int) := by
  unfold getMaskBBox at h
  by_cases hmax : (scanMask mask natW natH).maxX = -1
  · rw [if_pos hmax] at h
    exact absurd h (by simp)
  · rw [if_neg hmax] at h
    have hb := (Option.some.inj h).symm
    subst hb
    refine ⟨le_max_left _ _, le_max_left _ _, ?_, ?_⟩ <;>
    · simp only
      omega

theorem claim7_witness :
    getMaskBBox (fun x y => decide (x = 2 ∧ y = 2)) 5 5 = some ⟨0, 0, 5, 5⟩
    ∧ (0 ≤ (⟨0, 0, 5, 5⟩ : BBox).x ∧ 0 ≤ (⟨0, 0, 5, 5⟩ : BBox).y
      ∧ (⟨0, 0, 5, 5⟩ : BBox).x + (⟨0, 0, 5, 5⟩ : BBox).w ≤ ((5 : Nat) : Int)
      ∧ (⟨0, 0, 5, 5⟩ : BBox).y + (⟨0, 0, 5, 5⟩ : BBox).h ≤ ((5 : Nat) : Int)) :=
  ⟨by decide,
    claim7_bbox_in_bounds (fun x y => decide (x = 2 ∧ y = 2)) 5 5 ⟨0, 0, 5, 5⟩ (by decide)⟩

/-! ### Submission control flow (CorrectionPanel.tsx handleGenerate, lines 260-378) -/

/-- Everything `handleGenerate` did that the error-handling contract
observes: the message passed to `onError`, whether `onCorrected` fired,
whether `submitCorrection` was reached, and the two stroke histories after
the call (`handleGenerate` never mutates them). -/
structure GenResult where
  errorMsg : Option String
  corrected : Bool
  submitted : Bool
  srcHist : HistState
  refHist : HistState
deriving DecidableEq, Repr

/-- The template literal thrown on a wrong-sized result:
`Dimension mismatch: Expected WxH, but received RWxRH.`. -/
def dimensionMismatchMessage (w h rw rh : Nat) : String :=
  "Dimension mismatch: Expected " ++ toString w ++ "x" ++ toString h ++
    ", but received " ++ toString rw ++ "x" ++ toString rh ++ "."

def noReferenceMessage : String := "Please upload a reference image."

def noDimensionsMessage : String := "Could not determine source image dimensions."

def noPairedColorsMessage : String :=
  "Please paint on both the source and reference images with the same color to link correction areas."

def noValidPairsMessage : String :=
  "No valid, complete mask pairs were generated. Ensure you paint on both images with the same color."

/-- Embeds `handleGenerate`, with the network and PNG decoding abstracted into
`response`: `Except.error e` is a rejected `submitCorrection` promise,
`Except.ok (rw, rh)` a 200 response whose body decoded to an `rw x rh`
image. The guard order follows the source: reference check, natural-size
check (`!W || !H`), empty `pairedColors` check, mask-pair loop with its
skip-on-null filter and `pairs.length === 0` check, then the network call
and the dimension verification `resultImg.naturalWidth === W && ... === H`.
Thrown errors land in `errorMsg` via the surrounding `catch`;
`onCorrected` is reached only on the fully successful path. -/
def handleGenerate (hasReference : Bool) (src rf : HistState) (w h : Nat)
    (response : Except String (Nat × Nat)) : GenResult :=
  if !hasReference then
    { errorMsg := some noReferenceMessage, corrected := false, submitted := false,
      srcHist := src, refHist := rf }
  else if w = 0 || h = 0 then
    { errorMsg := some noDimensionsMessage, corrected := false, submitted := false,
      srcHist := src, refHist := rf }
  else
    let validPairedColors := pairedColors src rf
    if validPairedColors.isEmpty then
      { errorMsg := some noPairedColorsMessage, corrected := false, submitted := false,
        srcHist := src, refHist := rf }
    else
      let pairs := validPairedColors.filter (fun c => maskAvailable src c && maskAvailable rf c)
      if pairs.isEmpty then
        { errorMsg := some noValidPairsMessage, corrected := false, submitted := false,
          srcHist := src, refHist := rf }
      else
        match response with
        | .error e =>
          { errorMsg := some e, corrected := false, submitted := true,
            srcHist := src, refHist := rf }
        | .ok (rw, rh) =>
          if rw = w && rh = h then
            { errorMsg := none, corrected := true, submitted := true,
              srcHist := src, refHist := rf }
          else
            { errorMsg := some (dimensionMismatchMessage w h rw rh), corrected := false,
              submitted := true, srcHist := src, refHist := rf }

/-- A color in the active-color set of a canvas has an available mask there. -/
theorem maskAvailable_of_mem_map (st : HistState) (c : String)
    (h : c ∈ (activeStrokes st).map (fun s => s.color)) : maskAvailable st c = true := by
  rcases List.mem_map.1 h with ⟨s, hs, hc⟩
  unfold maskAvailable
  simp only [Bool.not_eq_true']
  rw [List.isEmpty_eq_false_iff_exists_mem]
  exact ⟨s, List.mem_filter.2 ⟨hs, by simp [hc]⟩⟩

theorem masks_of_mem_paired (src rf : HistState) (c : String)
    (h : c ∈ pairedColors src rf) :
    maskAvailable src c = true ∧ maskAvailable rf c = true := by
  have h1 := (List.mem_filter.1 h).1
  have h2 := (List.mem_filter.1 h).2
  constructor
  · apply maskAvailable_of_mem_map
    rw [activeColors, mem_firstDedup] at h1
    exact h1
  · apply maskAvailable_of_mem_map
    simpa using h2

/-- Every paired color survives the incomplete-mask skip filter. -/
theorem paired_filter_self (src rf : HistState) :
    (pairedColors src rf).filter (fun c => maskAvailable src c && maskAvailable rf c)
      = pairedColors src rf := by
  rw [List.filter_eq_self]
  intro c hc
  have h := masks_of_mem_paired src rf c hc
  simp [h.1, h.2]

/-- C5: when the dimensions of the decoded result differ from the native
`W x H`, `handleGenerate` surfaces the dimension-mismatch message carrying
both the expected and the received dimensions, `onCorrected` is not invoked,
and both stroke histories are exactly what they were, so the user can retry
without re-painting. -/
theorem claim5_dimension_mismatch (src rf : HistState) (w h rw rh : Nat)
    (hw : w ≠ 0) (hh : h ≠ 0)
    (hpaired : pairedColors src rf ≠ [])
    (hdims : ¬(rw = w ∧ rh = h)) :
    (handleGenerate true src rf w h (.ok (rw, rh))).errorMsg
        = some (dimensionMismatchMessage w h rw rh)
    ∧ (handleGenerate true src rf w h (.ok (rw, rh))).corrected = false
    ∧ (handleGenerate true src rf w h (.ok (rw, rh))).srcHist = src
    ∧ (handleGenerate true src rf w h (.ok (rw, rh))).refHist = rf := by
  have hne : (pairedColors src rf).isEmpty = false := by
    simpa [List.isEmpty_iff] using hpaired
  have hcond : (decide (rw = w) && decide (rh = h)) = false := by
    by_cases h1 : rw = w
    · by_cases h2 : rh = h
      · exact absurd ⟨h1, h2⟩ hdims
      · simp [h2]
    · simp [h1]
  simp [handleGenerate, paired_filter_self, hne, hcond, hw, hh]

/-- The 500x500 source painted red on both canvases, answered with a 400x400
image. -/
def mismatchScenario : GenResult :=
  handleGenerate true { history := [redStrokeA], idx := 0 }
    { history := [{ color := "red", path := [(9, 9), (8, 8)], brushSize := 20 }], idx := 0 }
    500 500 (.ok (400, 400))

theorem claim5_witness :
    (500 : Nat) ≠ 0 ∧ (500 : Nat) ≠ 0
    ∧ pairedColors { history := [redStrokeA], idx := 0 }
        { history := [{ color := "red", path := [(9, 9), (8, 8)], brushSize := 20 }], idx := 0 }
        ≠ []
    ∧ ¬((400 : Nat) = 500 ∧ (400 : Nat) = 500)
    ∧ (mismatchScenario.errorMsg = some (dimensionMismatchMessage 500 500 400 400)
      ∧ mismatchScenario.corrected = false
      ∧ mismatchScenario.srcHist = { history := [redStrokeA], idx := 0 }
      ∧ mismatchScenario.refHist
        = { history := [{ color := "red", path := [(9, 9), (8, 8)], brushSize := 20 }],
            idx := 0 }) :=
  ⟨by decide, by decide, by decide, by decide,
    claim5_dimension_mismatch { history := [redStrokeA], idx := 0 }
      { history := [{ color := "red", path := [(9, 9), (8, 8)], brushSize := 20 }], idx := 0 }
      500 500 400 400 (by decide) (by decide) (by decide) (by decide)⟩

/-- C6: when no color has at least one active stroke on both canvases,
`handleGenerate` raises the validation message before any network activity:
`submitted = false` says `submitCorrection` (and its `fetch`) is never
reached, whatever the network would have answered. -/
theorem claim6_no_paired_colors (src rf : HistState) (w h : Nat)
    (hw : w ≠ 0) (hh : h ≠ 0)
    (hpaired : pairedColors src rf = []) (response : Except String (Nat × Nat)) :
    (handleGenerate true src rf w h response).errorMsg = some noPairedColorsMessage
    ∧ (handleGenerate true src rf w h response).submitted = false
    ∧ (handleGenerate true src rf w h response).corrected = false
    ∧ (handleGenerate true src rf w h response).srcHist = src
    ∧ (handleGenerate true src rf w h response).refHist = rf := by
  unfold handleGenerate
  simp [hw, hh, hpaired]

/-- Red painted only on the source, empty reference history. -/
def unpairedScenario : GenResult :=
  handleGenerate true { history := [redStrokeA], idx := 0 } { history := [], idx := -1 }
    500 500 (.ok (500, 500))

theorem claim6_witness :
    (500 : Nat) ≠ 0 ∧ (500 : Nat) ≠ 0
    ∧ pairedColors { history := [redStrokeA], idx := 0 } { history := [], idx := -1 } = []
    ∧ (unpairedScenario.errorMsg = some noPairedColorsMessage
      ∧ unpairedScenario.submitted = false
      ∧ unpairedScenario.corrected = false
      ∧ unpairedScenario.srcHist = { history := [redStrokeA], idx := 0 }
      ∧ unpairedScenario.refHist = { history := [], idx := -1 }) :=
  ⟨by decide, by decide, by decide,
    claim6_no_paired_colors { history := [redStrokeA], idx := 0 }
      { history := [], idx := -1 } 500 500 (by decide) (by decide) (by decide)
      (.ok (500, 500))⟩

/-! ### Multipart form assembly (src/lib/form.ts submitCorrection, lines 29-48) -/

/-- The per-pair correction method (src/types.ts `CorrectionPair.method`). -/
inductive Method where
  | extract
  | generate
deriving DecidableEq, Repr

/-- The `CorrectionPair` record from src/types.ts. -/
structure CorrectionPair where
  colorId : String
  method : Method
  sourceBBox : Option BBox
  referenceBBox : Option BBox
deriving DecidableEq, Repr

/-- The `WorkerMetadata` record from src/types.ts. -/
structure WorkerMetadata where
  width : Nat
  height : Nat
  enforceFixedCanvas : Bool
  sequential : Bool
  pairs : List CorrectionPair
deriving DecidableEq, Repr

/-- One part of the assembled `FormData`: the field name and the filename it
is appended under (the blob contents are abstracted away). -/
structure FormEntry where
  field : String
  filename : String
deriving DecidableEq, Repr

/-- JS string replace with a one-character string pattern (`replace` in
form.ts line 42): drop only the first occurrence of the hash character. -/
def stripHashOnceAux : List Char → List Char
  | [] => []
  | c :: cs => if c = '#' then cs else c :: stripHashOnceAux cs

def stripHashOnce (s : String) : String :=
  String.mk (stripHashOnceAux s.data)

/-- The expression that picks the filename color token: take the pair at
index `i`, strip the hash from its `colorId`, and fall back to the numeric
index when the pair is missing or the stripped string is empty (both are
falsy in JS). -/
def colorIdFor (pairs : List CorrectionPair) (i : Nat) : String :=
  match pairs.get? i with
  | some p => if stripHashOnce p.colorId = "" then toString i else stripHashOnce p.colorId
  | none => toString i

/-- The `sourceMasks.forEach((m, i) => form.append(...))` loop (and its
`referenceMasks` twin), producing one entry per mask blob, with the running
index `i`. -/
def maskEntriesGo {α : Type} (tag : String) (pairs : List CorrectionPair) :
    List α → Nat → List FormEntry
  | [], _ => []
  | _ :: ms, i =>
    { field := tag ++ "_mask_" ++ toString i,
      filename := tag ++ "_mask_" ++ colorIdFor pairs i ++ ".png" }
      :: maskEntriesGo tag pairs ms (i + 1)

/-- The full `FormData` assembled by `submitCorrection`, as the ordered list
of appended (field, filename) parts: metadata, the two image files, then the
indexed source masks and the indexed reference masks. -/
def submitCorrectionEntries {α : Type} (metadata : WorkerMetadata)
    (sourceMasks referenceMasks : List α) : List FormEntry :=
  { field := "metadata", filename := "metadata.json" }
    :: { field := "source_image", filename := "source.png" }
    :: { field := "reference_image", filename := "reference.png" }
    :: (maskEntriesGo "source" metadata.pairs sourceMasks 0
        ++ maskEntriesGo "reference" metadata.pairs referenceMasks 0)

theorem colorIdFor_eq (pairs : List CorrectionPair) (i : Nat) (p : CorrectionPair)
    (hget : pairs.get? i = some p) (hne : stripHashOnce p.colorId ≠ "") :
    colorIdFor pairs i = stripHashOnce p.colorId := by
  unfold colorIdFor
  rw [hget]
  simp [hne]

theorem maskEntriesGo_spec {α : Type} (tag : String) (pairs : List CorrectionPair)
    (hne : ∀ p ∈ pairs, stripHashOnce p.colorId ≠ "") :
    ∀ (masks : List α) (k : Nat), masks.length + k = pairs.length →
    maskEntriesGo tag pairs masks k
      = ((pairs.drop k).enumFrom k).map (fun pr =>
          { field := tag ++ "_mask_" ++ toString pr.1,
            filename := tag ++ "_mask_" ++ stripHashOnce pr.2.colorId ++ ".png" })
  | [], k, hlen => by
    have : pairs.drop k = [] := List.drop_of_length_le (by simpa using hlen.symm.le)
    simp [maskEntriesGo, this]
  | _ :: ms, k, hlen => by
    have hk : k < pairs.length := by
      simp only [List.length_cons] at hlen
      omega
    have hdrop : pairs.drop k = pairs.get ⟨k, hk⟩ :: pairs.drop (k + 1) := by
      rw [List.drop_eq_getElem_cons hk]
      rfl
    have hget : pairs.get? k = some (pairs.get ⟨k, hk⟩) := List.get?_eq_get hk
    rw [maskEntriesGo, hdrop]
    simp only [List.enumFrom_cons, List.map_cons]
    congr 1
    · rw [colorIdFor_eq pairs k _ hget (hne _ (pairs.get_mem k hk))]
    · have hlen2 : ms.length + (k + 1) = pairs.length := by
        simp only [List.length_cons] at hlen
        omega
      exact maskEntriesGo_spec tag pairs hne ms (k + 1) hlen2

/-- C8: with `n` pairs and `n` masks per side whose stripped color ids are
nonempty, the form contains exactly, and in this order: the metadata part
named `metadata.json`, `source_image` / `reference_image` named `source.png`
/ `reference.png`, the mask fields `source_mask_0 .. source_mask_{n-1}` and
then `reference_mask_0 .. reference_mask_{n-1}` in pair order, each mask
filename embedding the color id of its pair with the hash stripped, index-aligned
with the metadata `pairs` list by construction of the right-hand side. -/
theorem claim8_form_fields {α : Type} (md : WorkerMetadata) (sm rm : List α) (n : Nat)
    (h1 : sm.length = n) (h2 : rm.length = n) (h3 : md.pairs.length = n)
    (h4 : ∀ p ∈ md.pairs, stripHashOnce p.colorId ≠ "") :
    submitCorrectionEntries md sm rm
      = { field := "metadata", filename := "metadata.json" }
        :: { field := "source_image", filename := "source.png" }
        :: { field := "reference_image", filename := "reference.png" }
        :: (md.pairs.enum.map (fun pr =>
              { field := "source_mask_" ++ toString pr.1,
                filename := "source_mask_" ++ stripHashOnce pr.2.colorId ++ ".png" })
          ++ md.pairs.enum.map (fun pr =>
              { field := "reference_mask_" ++ toString pr.1,
                filename := "reference_mask_" ++ stripHashOnce pr.2.colorId ++ ".png" })) := by
  unfold submitCorrectionEntries
  rw [maskEntriesGo_spec "source" md.pairs h4 sm 0 (by omega),
    maskEntriesGo_spec "reference" md.pairs h4 rm 0 (by omega)]
  rfl

/-- Two palette pairs, as `handleGenerate` would assemble them. -/
def demoPairs : List CorrectionPair :=
  [{ colorId := "#ef4444", method := .generate, sourceBBox := none, referenceBBox := none },
   { colorId := "#3b82f6", method := .extract, sourceBBox := some ⟨1, 2, 3, 4⟩,
     referenceBBox := some ⟨5, 6, 7, 8⟩ }]

def demoMetadata : WorkerMetadata :=
  { width := 500, height := 500, enforceFixedCanvas := true, sequential := true,
    pairs := demoPairs }

theorem claim8_witness :
    ([(), ()] : List Unit).length = 2 ∧ ([(), ()] : List Unit).length = 2
    ∧ demoMetadata.pairs.length = 2
    ∧ (∀ p ∈ demoMetadata.pairs, stripHashOnce p.colorId ≠ "")
    ∧ submitCorrectionEntries demoMetadata [(), ()] [(), ()]
      = { field := "metadata", filename := "metadata.json" }
        :: { field := "source_image", filename := "source.png" }
        :: { field := "reference_image", filename := "reference.png" }
        :: (demoMetadata.pairs.enum.map (fun pr =>
              { field := "source_mask_" ++ toString pr.1,
                filename := "source_mask_" ++ stripHashOnce pr.2.colorId ++ ".png" })
          ++ demoMetadata.pairs.enum.map (fun pr =>
              { field := "reference_mask_" ++ toString pr.1,
                filename := "reference_mask_" ++ stripHashOnce pr.2.colorId ++ ".png" })) :=
  ⟨rfl, rfl, rfl, by decide,
    claim8_form_fields demoMetadata [(), ()] [(), ()] 2 rfl rfl rfl (by decide)⟩

end BadRobot
